import Mathlib

/-!
Verification development for the `vs-rest-api` workspace host
(`src/host.ts`: the `ApiHost` dispatcher, and the workspace filesystem
browsing module exporting `get`/`post` via its `request` function).

The TypeScript source is shallowly embedded: strings are Lean `String`s,
filesystem paths are segment lists (`List String`, POSIX separators,
`Path.sep = '/'`), JS objects with data fields become structures, promise
resolution/rejection becomes `Except`, and external collaborators
(module loading, user resolution, file visibility, MIME detection, the
open-in-editor action, compression) are parameters.

Helper functions from the repository's `helpers.ts` / `host/helpers.ts`
are not part of `src/`; each such definition is marked
`Modelled from the spec:` and follows the specification's wording.
-/

/-! ## Character and string utilities -/

/-- Lower-cases an ASCII letter, models JS `String.prototype.toLowerCase`
restricted to ASCII input (all inputs exercised here are ASCII). -/
def lowerChar (c : Char) : Char :=
  if 65 ≤ c.toNat ∧ c.toNat ≤ 90 then Char.ofNat (c.toNat + 32) else c

/-- Whitespace recognizer used by trimming (models JS `String.prototype.trim`
for the ASCII whitespace appearing in this code base). -/
def isWsChar (c : Char) : Bool :=
  c = ' ' ∨ c = '\t' ∨ c = '\n' ∨ c = '\r'

/-- Drops leading and trailing whitespace from a character list. -/
def trimList (l : List Char) : List Char :=
  ((l.dropWhile isWsChar).reverse.dropWhile isWsChar).reverse

/-- Modelled from the spec: `helpers.normalizeString` (missing from `src/`)
computes the "lower-case comparison key" of a value: the string, lower-cased
and trimmed. -/
def normalizeString (s : String) : String :=
  String.mk (trimList (s.data.map lowerChar))

/-- Modelled from the spec: `helpers.isEmptyString` (missing from `src/`)
is true when the trimmed string is empty. -/
def jsIsEmptyString (s : String) : Bool :=
  (trimList s.data).isEmpty

/-- Modelled from the spec: `helpers.cleanupString` (missing from `src/`)
"cleans" a segment by keeping only alphanumeric characters. -/
def cleanupString (s : String) : String :=
  String.mk (s.data.filter Char.isAlphanum)

/-- Replaces every backslash by a forward slash, embedding the two
`replaceAllStrings(p, "\\", '/')` / `replaceAllStrings(p, Path.sep, '/')`
normalization steps (on POSIX `Path.sep` is already `'/'`). -/
def mapSlashStr (s : String) : String :=
  String.mk (s.data.map (fun c => if c = '\\' then '/' else c))

/-- Boolean prefix test on lists (used for both characters and path
segments); self-contained so its properties can be proved directly. -/
def listStartsWith [DecidableEq α] : List α → List α → Bool
  | [], _ => true
  | _ :: _, [] => false
  | a :: as, b :: bs => a = b && listStartsWith as bs

/-- Splits a character list at every occurrence of `sep`, JS
`String.prototype.split` semantics: splitting the empty string yields
one empty group. -/
def splitOnChar (sep : Char) : List Char → List (List Char)
  | [] => [[]]
  | c :: rest =>
    let r := splitOnChar sep rest
    if c = sep then [] :: r
    else
      match r with
      | [] => [[c]]
      | g :: gs => (c :: g) :: gs

/-- Value of a hexadecimal digit character. -/
def hexVal (c : Char) : Option Nat :=
  if 48 ≤ c.toNat ∧ c.toNat ≤ 57 then some (c.toNat - 48)
  else if 65 ≤ c.toNat ∧ c.toNat ≤ 70 then some (c.toNat - 55)
  else if 97 ≤ c.toNat ∧ c.toNat ≤ 102 then some (c.toNat - 87)
  else none

/-- Hexadecimal digit character of a value below 16 (upper case, as
produced by JS `encodeURIComponent`). -/
def hexDigitChar (n : Nat) : Char :=
  if n < 10 then Char.ofNat (48 + n) else Char.ofNat (55 + n)

/-- Models JS `decodeURIComponent` on ASCII input: a percent sign must be
followed by two hexadecimal digits and decodes to the denoted byte; a
malformed escape throws (`none`).  Multi-byte UTF-8 sequences do not occur
in the inputs considered here. -/
def percentDecodeL : List Char → Option (List Char)
  | [] => some []
  | '%' :: h1 :: h2 :: rest =>
    match hexVal h1, hexVal h2 with
    | some a, some b => (percentDecodeL rest).map (fun l => Char.ofNat (16 * a + b) :: l)
    | _, _ => none
  | '%' :: _ => none
  | c :: rest => (percentDecodeL rest).map (fun l => c :: l)

/-- Characters left unescaped by JS `encodeURIComponent`:
alphanumerics and `- _ . ! ~ * ' ( )`. -/
def isUriUnreserved (c : Char) : Bool :=
  c.isAlphanum || c = '-' || c = '_' || c = '.' || c = '!' ||
    c = '~' || c = '*' || c.toNat = 39 || c = '(' || c = ')'

/-- Models JS `encodeURIComponent` on ASCII input: unreserved characters
are kept, every other character is percent-escaped. -/
def encodeURIComponentStr (s : String) : String :=
  String.mk (s.data.foldr
    (fun c acc =>
      if isUriUnreserved c then c :: acc
      else '%' :: hexDigitChar (c.toNat / 16) :: hexDigitChar (c.toNat % 16) :: acc)
    [])

/-- Lexicographic comparison of character lists by code point, the JS
`<` relation on (ASCII) strings. -/
def charListLt : List Char → List Char → Bool
  | [], [] => false
  | [], _ :: _ => true
  | _ :: _, [] => false
  | a :: as, b :: bs =>
    if a.toNat < b.toNat then true
    else if b.toNat < a.toNat then false
    else charListLt as bs

/-- JS `x < y` on strings. -/
def strLtB (x y : String) : Bool :=
  charListLt x.data y.data

/-- Modelled from the spec: `helpers.compareValues` (missing from `src/`)
is the usual three-way comparison returning `-1`/`0`/`1`. -/
def compareValues (x y : String) : Int :=
  if strLtB x y then -1 else if strLtB y x then 1 else 0

/-- Insertion into a list sorted by `le`; an element is placed before the
first list element it is `le`-related to, which preserves the relative
order of elements the comparator calls equal (stable, as JS
`Array.prototype.sort` guarantees). -/
def insertBy (le : α → α → Bool) (x : α) : List α → List α
  | [] => [x]
  | y :: ys => if le x y then x :: y :: ys else y :: insertBy le x ys

/-- Stable sort by a JS-style three-way comparator `cmp`: embeds
`Array.prototype.sort(cmp)` (stable per the ECMAScript specification). -/
def jsStableSort (cmp : α → α → Int) : List α → List α
  | [] => []
  | x :: xs => insertBy (fun a b => cmp a b ≤ 0) x (jsStableSort cmp xs)

/-! ## Path model

Absolute filesystem paths are lists of segments; the workspace root is
such a list.  `Path.join` on POSIX concatenates and then resolves `.` and
`..` segments, clamping at the filesystem root. -/

/-- Resolves `.`/`..`/empty segments of an absolute path, clamping `..` at
the filesystem root (POSIX `Path.join` / `Path.resolve` semantics). -/
def normalizeSegs (segs : List String) : List String :=
  segs.foldl
    (fun acc s =>
      if s = "" ∨ s = "." then acc
      else if s = ".." then acc.dropLast
      else acc ++ [s])
    []

/-- Embeds `Path.join(rootPath, parts.join('/'))` from the workspace
module's `request`: the parts are joined with `/`, re-split (a decoded
part may itself contain slashes), appended to the root and normalized. -/
def joinPath (wsRoot : List String) (parts : List String) : List String :=
  let joined := String.intercalate "/" parts
  normalizeSegs (wsRoot ++ (splitOnChar '/' joined.data).map String.mk)

/-- Modelled from the spec: `helpers.toRelativePath` (missing from `src/`),
the PathResolver contract — computes the path's location relative to the
workspace root and reports `NotInWorkspace` (`none`) when the path escapes
the root.  No filesystem access is performed. -/
def toRelativePath (wsRoot p : List String) : Option (List String) :=
  if listStartsWith wsRoot p then some (p.drop wsRoot.length) else none

/-- Base name of a path (`Path.basename`): its last segment. -/
def basenameOf (p : List String) : String :=
  p.getLast?.getD ""

/-! ## ApiContext

The per-request mutable response-building object created in
`ApiHost.handleApi` (host.ts lines 296-351).  `headers = none` models a
`delete`d headers object, `response`/`content` model the two mutually
exclusive payload fields. -/

/-- One serialized entry of a directory listing payload
(`list.dirs` / `list.files` elements; dir entries have no `mime` key and
carry `entryType = "dir"`, file entries `entryType = "file"`). -/
structure RespEntry where
  creationTime : Option String
  lastChangeTime : Option String
  lastModifiedTime : Option String
  mime : Option String
  name : String
  path : String
  entryType : String
  deriving DecidableEq

/-- The directory listing payload built by the workspace module's
`completed` continuation (`{dirs, files, parent?}`). -/
structure DirListing where
  dirs : List RespEntry
  files : List RespEntry
  parent : Option String
  deriving DecidableEq

/-- Structured JSON payloads that handlers store in `response.data`. -/
inductive RespData
  | listing (l : DirListing)
  | rootInfo (addr : String) (time : String) (me : Option String)
  deriving DecidableEq

/-- The structured JSON envelope `{code, data?, msg?}` (`ApiResponse`). -/
structure ApiResponseVal where
  code : Nat
  data : Option RespData
  msg : Option String
  deriving DecidableEq

/-- State of the `ApiContext` object: status code, headers (`none` after a
`delete this.headers`), the mutually convention-exclusive `response` and
`content` fields, and the text encoding. -/
structure ApiCtxState where
  statusCode : Nat
  headers : Option (List (String × String))
  response : Option ApiResponseVal
  content : Option String
  encoding : String
  deriving DecidableEq

/-- First-match lookup in an association list (JS object property read). -/
def assocLookup (l : List (String × String)) (k : String) : Option String :=
  match l with
  | [] => none
  | (k', v) :: rest => if k' = k then some v else assocLookup rest k

/-- Property assignment on a JS object modelled as an association list:
updates the first binding of `k` in place, or appends a new one. -/
def assocUpd (l : List (String × String)) (k v : String) : List (String × String) :=
  match l with
  | [] => [(k, v)]
  | (k', v') :: rest => if k' = k then (k, v) :: rest else (k', v') :: assocUpd rest k v

/-- Header lookup on an `ApiCtxState` (a deleted headers object has no
entries). -/
def headerLookup (st : ApiCtxState) (k : String) : Option String :=
  match st.headers with
  | none => none
  | some l => assocLookup l k

/-- The fresh `ApiContext` built in `ApiHost.handleApi` (host.ts lines
296-335): status 200, a JSON content-type header, the predefined response
`{code: 0}`, no raw content, UTF-8 encoding. -/
def initialApiCtx : ApiCtxState :=
  { statusCode := 200
    headers := some [("Content-type", "application/json; charset=utf-8")]
    response := some { code := 0, data := none, msg := none }
    content := none
    encoding := "utf8" }

/-- `ApiContext.setContent` (host.ts lines 303-318): deletes `response`,
stores the new content, and overwrites the content-type header when a
non-empty mime type is given (creating the headers object if deleted). -/
def applySetContent (st : ApiCtxState) (newContent : String) (mime : String) : ApiCtxState :=
  let m := normalizeString mime
  { st with
    response := none
    content := some newContent
    headers :=
      if m = "" then st.headers
      else some (assocUpd (st.headers.getD []) "Content-type" m) }

/-- `ApiContext.sendMethodNotAllowed` (host.ts lines 319-326): status 405,
deletes `response` and the whole headers object. -/
def applySendMethodNotAllowed (st : ApiCtxState) : ApiCtxState :=
  { st with statusCode := 405, response := none, headers := none }

/-- `ApiContext.sendNotFound` (host.ts lines 327-334): status 404, deletes
`response` and the whole headers object. -/
def applySendNotFound (st : ApiCtxState) : ApiCtxState :=
  { st with statusCode := 404, response := none, headers := none }

/-- Header assignment `apiCtx.headers[k] = v` (the handlers only perform
it while the headers object exists). -/
def setHeader (st : ApiCtxState) (k v : String) : ApiCtxState :=
  { st with headers := some (assocUpd (st.headers.getD []) k v) }

/-- Assignment `apiCtx.response.data = d` (performed while `response` is
present). -/
def setResponseData (st : ApiCtxState) (d : RespData) : ApiCtxState :=
  { st with response := st.response.map (fun r => { r with data := some d }) }

/-- Assignment `apiCtx.response.code = c` (performed while `response` is
present). -/
def setResponseCode (st : ApiCtxState) (c : Nat) : ApiCtxState :=
  { st with response := st.response.map (fun r => { r with code := c }) }

/-! ## Dispatcher (`ApiHost.handleRequest` / `handleApi` /
`start`'s request listener) -/

/-- Checks whether `REGEX_API = /^(\/)(api)(\/)?/i` matches: the pattern
is anchored at the start, the trailing slash group is optional, and the
`i` flag lower-cases the comparison, so `test` succeeds exactly when the
lower-cased input starts with `/api`. -/
def regexApiTest (s : String) : Bool :=
  listStartsWith "/api".data (s.data.map lowerChar)

/-- `ApiHost.handleRequest` (host.ts line 439-441): normalizes the URL
path and tests it against `REGEX_API` to decide API-vs-404 routing. -/
def isApiRequest (pathname : String) : Bool :=
  regexApiTest (normalizeString pathname)

/-- The path-segment computation of `ApiHost.handleApi` (host.ts lines
230-238): normalize separators, normalize the string, drop the first four
characters (`substr(4)`), split on `/`, normalize each part and drop the
empty ones. -/
def apiPartsOf (pathname : String) : List String :=
  let np := normalizeString (mapSlashStr pathname)
  (((splitOnChar '/' (np.data.drop 4)).map (fun cs => normalizeString (String.mk cs))).filter
    (fun s => !jsIsEmptyString s))

/-- A dynamically loaded handler module: its exports in declaration order,
each marked with whether the exported value is a function. -/
structure JsModule where
  exports : List (String × Bool)
  deriving DecidableEq

/-- The `for (let p in mod)` loop of `handleApi` (host.ts lines 258-266):
finds the first export named like the HTTP method and reports whether it
is a function. -/
def exportLookup (exps : List (String × Bool)) (meth : String) : Option Bool :=
  match exps with
  | [] => none
  | (n, fn) :: rest => if n = meth then some fn else exportLookup rest meth

/-- The resolved acting user (external collaborator `host/users.getUser`):
guest flag and the account's `name` property. -/
structure User where
  isGuest : Bool
  accountName : String
  deriving DecidableEq

/-- The root-resource handler's response data (host.ts lines 281-292):
remote address, the request time formatted as `YYYY-MM-DD HH:mm:ss`, and —
only for non-guest users — `me.name`, the account name passed through
`normalizeString`. -/
def rootResponseData (remoteAddr timeStr accountName : String) (guest : Bool) : RespData :=
  .rootInfo remoteAddr timeStr (if guest then none else some (normalizeString accountName))

/-- How a request leaves the dispatcher. -/
inductive RunOutcome
  | unauthorized
  | nonApiNotFound
  | apiNotFound
  | apiMethodNotAllowed
  | rootHandled (d : RespData)
  | moduleHandled (modName meth : String)
  deriving DecidableEq

/-- Observable result of one run of the request listener: the routing
outcome, every module name a dynamic load was attempted for, and whether
`handleRequest` was reached. -/
structure ListenerRun where
  outcome : RunOutcome
  modulesLoaded : List String
  handleRequestInvoked : Bool
  deriving DecidableEq

/-- The normalized request method (host.ts lines 498-507): lower-cased,
defaulting to `get` when empty. -/
def effectiveMethod (rawMethod : String) : String :=
  let m := normalizeString rawMethod
  if m = "" then "get" else m

/-- Embeds the request listener of `ApiHost.start` (host.ts lines
491-531) together with `handleRequest` and the routing part of
`handleApi`: resolve the user (`401` and stop when none), test the API
prefix (`404` otherwise), and resolve module + verb; `loadMod` is the
dynamic `require` of `./api/<module>`. -/
def requestListenerModel (user : Option User) (loadMod : String → Option JsModule)
    (rawMethod pathname remoteAddr timeStr : String) : ListenerRun :=
  match user with
  | none => { outcome := .unauthorized, modulesLoaded := [], handleRequestInvoked := false }
  | some u =>
    if isApiRequest pathname then
      match apiPartsOf pathname with
      | [] =>
        { outcome := .rootHandled (rootResponseData remoteAddr timeStr u.accountName u.isGuest)
          modulesLoaded := []
          handleRequestInvoked := true }
      | m0 :: _ =>
        let modName := cleanupString m0
        if jsIsEmptyString modName then
          { outcome := .rootHandled (rootResponseData remoteAddr timeStr u.accountName u.isGuest)
            modulesLoaded := []
            handleRequestInvoked := true }
        else
          match loadMod modName with
          | none => { outcome := .apiNotFound, modulesLoaded := [modName], handleRequestInvoked := true }
          | some m =>
            match exportLookup m.exports (effectiveMethod rawMethod) with
            | some true =>
              { outcome := .moduleHandled modName (effectiveMethod rawMethod)
                modulesLoaded := [modName]
                handleRequestInvoked := true }
            | _ =>
              { outcome := .apiMethodNotAllowed
                modulesLoaded := [modName]
                handleRequestInvoked := true }
    else { outcome := .nonApiNotFound, modulesLoaded := [], handleRequestInvoked := true }

/-- HTTP status each outcome is answered with.  `sendUnauthorized` and
`sendNotFound` are helpers missing from `src/`; modelled from the spec
(`401 Unauthorized`, `404 Not Found`).  The method-not-allowed responder
goes through `ApiContext.sendMethodNotAllowed` and the response pipeline,
which writes `apiCtx.statusCode`.  A module handler's status depends on
the handler (`none` here). -/
def statusOfOutcome : RunOutcome → Option Nat
  | .unauthorized => some 401
  | .nonApiNotFound => some 404
  | .apiNotFound => some 404
  | .apiMethodNotAllowed => some (applySendMethodNotAllowed initialApiCtx).statusCode
  | .rootHandled _ => some initialApiCtx.statusCode
  | .moduleHandled _ _ => none


/-! ## Workspace filesystem browsing module

Embeds the second source file (the `/api/workspace` module): `request`
(exported as both `get` and `post`), `handleDirectory`, and `handleFile`.
The filesystem is a finite map from absolute segment paths to node
information; `lstat` distinguishes directories, regular files and other
nodes. -/

/-- HTTP header name for the resource-type discriminator
(`HEADER_FILE_TYPE`). -/
def HEADER_FILE_TYPE : String := "X-vscode-restapi-type"

/-- Node classification reported by `lstat`. -/
inductive NodeKind
  | dirKind
  | fileKind
  | specialKind
  deriving DecidableEq

/-- Stat information of one filesystem node: kind, the `readdir` child
names (directories), timestamps carried as their already-formatted
`YYYY-MM-DD HH:mm:ss` renderings (empty string for an absent date), and
file content/size. -/
structure NodeInfo where
  kind : NodeKind
  children : List String := []
  birthtime : String := ""
  ctime : String := ""
  mtime : String := ""
  content : String := ""
  size : Nat := 0
  deriving DecidableEq

/-- A finite filesystem: association of absolute segment paths to nodes. -/
def FileSystem := List (List String × NodeInfo)

/-- Looks a path up in the filesystem (backs `FS.exists`, `FS.lstat`,
`FS.readdir` and `FS.readFile`). -/
def fsLookup (fs : FileSystem) (p : List String) : Option NodeInfo :=
  match fs with
  | [] => none
  | (q, info) :: rest => if q = p then some info else fsLookup rest p

/-- One filesystem call performed by the workspace module, for tracing
which I/O a request triggers. -/
inductive FsCall
  | existsCall (p : List String)
  | lstatCall (p : List String)
  | readdirCall (p : List String)
  | readFileCall (p : List String)
  deriving DecidableEq

/-- `FileSystemItem` record collected for a directory child. -/
structure DirectoryItem where
  birthtime : String
  ctime : String
  fullPath : List String
  mtime : String
  name : String
  deriving DecidableEq

/-- `FileItem` record collected for a file child (adds mime and size). -/
structure FileItem where
  birthtime : String
  ctime : String
  fullPath : List String
  mime : String
  mtime : String
  name : String
  size : Nat
  deriving DecidableEq

/-- `hasLeadingDot` (workspace module): the normalized name starts with a
dot. -/
def hasLeadingDot (d : String) : Bool :=
  listStartsWith ['.'] (normalizeString d).data

/-- The sort comparator of `completed` (workspace module): it passes the
*item records themselves* — not their names — to `normalizeString`;
`toStringSafe` on a plain JS object yields `"[object Object]"`, so the
key of every item is the constant `normalizeString "[object Object]"`. -/
def dirItemCmp (_x _y : DirectoryItem) : Int :=
  compareValues (normalizeString "[object Object]") (normalizeString "[object Object]")

/-- The same comparator applied to file items. -/
def fileItemCmp (_x _y : FileItem) : Int :=
  compareValues (normalizeString "[object Object]") (normalizeString "[object Object]")

/-- `toDateTime` of `completed`: keeps the formatted timestamp and maps
an absent date (`!x`, modelled by the empty string) to `undefined`. -/
def toDateTimeOpt (t : String) : Option String :=
  if t = "" then none else some t

/-- Segments of the `normalizePath(relativePath).split('/')` computation
of `completed`: the relative path string of `dir` under the root carries
a leading slash (it is `substr` of the absolute path), so splitting
prepends an empty segment; for the root itself — and for the unreachable
`false` value, which `toStringSafe` maps to the empty string — the split
yields a single empty segment. -/
def relSplitSegs (wsRoot dir : List String) : List String :=
  "" :: ((toRelativePath wsRoot dir).getD [])

/-- The `path` value of one listing entry: the fixed `/api/workspace`
mount point followed by the URL-encoded relative segments and the child
name. -/
def listingEntryPath (wsRoot dir : List String) (name : String) : String :=
  "/api/workspace" ++
    String.intercalate "/" ((relSplitSegs wsRoot dir ++ [name]).map encodeURIComponentStr)

/-- The `parent` link computation of `completed` (workspace module lines
around 771-782): resolve `dir/..`, take its workspace-relative location,
and emit the encoded API path unless the relative computation fails or
the parent equals the directory itself. -/
def parentLink (wsRoot dir : List String) : Option String :=
  let parentDir := dir.dropLast
  match toRelativePath wsRoot parentDir with
  | none => none
  | some relPar =>
    if parentDir = dir then none
    else some ("/api/workspace" ++
      String.intercalate "/" (("" :: relPar).map encodeURIComponentStr))

/-- Serializes a collected directory child into its listing entry. -/
def dirEntryOf (wsRoot dir : List String) (x : DirectoryItem) : RespEntry :=
  { creationTime := toDateTimeOpt x.birthtime
    lastChangeTime := toDateTimeOpt x.ctime
    lastModifiedTime := toDateTimeOpt x.mtime
    mime := none
    name := x.name
    path := listingEntryPath wsRoot dir x.name
    entryType := "dir" }

/-- Serializes a collected file child into its listing entry. -/
def fileEntryOf (wsRoot dir : List String) (x : FileItem) : RespEntry :=
  { creationTime := toDateTimeOpt x.birthtime
    lastChangeTime := toDateTimeOpt x.ctime
    lastModifiedTime := toDateTimeOpt x.mtime
    mime := some x.mime
    name := x.name
    path := listingEntryPath wsRoot dir x.name
    entryType := "file" }

/-- The payload-building part of `completed`: sorts the collected
directory and file items with the object-keyed comparator, serializes
them, and attaches the parent link. -/
def buildListing (wsRoot dir : List String) (ds : List DirectoryItem)
    (fls : List FileItem) : DirListing :=
  { dirs := (jsStableSort dirItemCmp ds).map (dirEntryOf wsRoot dir)
    files := (jsStableSort fileItemCmp fls).map (fileEntryOf wsRoot dir)
    parent := parentLink wsRoot dir }

/-- The sequential `nextItem` traversal of `handleDirectory`: `lstat`
each child in `readdir` order; directories are collected unless dotted
and `withDot` is off, files are collected only when the visibility
capability approves them, other nodes are skipped; an `lstat` failure
aborts the whole traversal. -/
def collectItems (fs : FileSystem) (visible : List String → Bool) (withDot : Bool)
    (mimeOf : String → String) (dir : List String) :
    List String → Except String (List DirectoryItem × List FileItem × List FsCall)
  | [] => .ok ([], [], [])
  | i :: rest =>
    let fullPath := dir ++ [i]
    match fsLookup fs fullPath with
    | none => .error "lstat failed"
    | some st =>
      match collectItems fs visible withDot mimeOf dir rest with
      | .error e => .error e
      | .ok (ds, fls, tr) =>
        match st.kind with
        | .dirKind =>
          let addDir := if hasLeadingDot i then withDot else true
          .ok ((if addDir then
                  ({ birthtime := st.birthtime, ctime := st.ctime, fullPath := fullPath
                     mtime := st.mtime, name := i } : DirectoryItem) :: ds
                else ds),
               fls, .lstatCall fullPath :: tr)
        | .fileKind =>
          .ok (ds,
               (if visible fullPath then
                  ({ birthtime := st.birthtime, ctime := st.ctime, fullPath := fullPath
                     mime := mimeOf i, mtime := st.mtime, name := i, size := st.size } : FileItem) :: fls
                else fls),
               .lstatCall fullPath :: tr)
        | .specialKind => .ok (ds, fls, .lstatCall fullPath :: tr)

/-- `handleDirectory` (workspace module): sets the `directory` type
header, reads the directory, traverses the children sequentially, and on
completion stores the sorted listing in `response.data`. -/
def handleDirectory (fs : FileSystem) (visible : List String → Bool) (withDot : Bool)
    (mimeOf : String → String) (wsRoot dir : List String) (children : List String)
    (ctx : ApiCtxState) : Except String (ApiCtxState × List FsCall) :=
  let ctx1 := setHeader ctx HEADER_FILE_TYPE "directory"
  match collectItems fs visible withDot mimeOf dir children with
  | .error e => .error e
  | .ok (ds, fls, tr) =>
    .ok (setResponseData ctx1 (.listing (buildListing wsRoot dir ds fls)),
         .readdirCall dir :: tr)

/-- `handleFile` (workspace module): sets the `file` type header; `get`
reads the file and stores it via `setContent` with the detected mime
type (detected from the *full path* here), `post` asks the editor to
open the document (open failure rejects; show failure sets response code
1), any other verb answers 405. -/
def handleFile (fs : FileSystem) (mimeOf : String → String) (openDocOk showOk : Bool)
    (meth : String) (file : List String) (ctx : ApiCtxState) :
    Except String (ApiCtxState × List FsCall) :=
  let ctx1 := setHeader ctx HEADER_FILE_TYPE "file"
  if meth = "get" then
    match fsLookup fs file with
    | some info =>
      .ok (applySetContent ctx1 info.content (mimeOf ("/" ++ String.intercalate "/" file)),
           [.readFileCall file])
    | none => .error "readFile failed"
  else if meth = "post" then
    if openDocOk then
      if showOk then .ok (ctx1, [])
      else .ok (setResponseCode ctx1 1, [])
    else .error "openTextDocument failed"
  else
    .ok (applySendMethodNotAllowed ctx1, [])

/-- The URL-segment computation of the workspace module's `request`:
separator normalization, split on `/`, keep the segments after index 2
(dropping the empty prefix, `api` and `workspace`), percent-decode each
(a malformed escape throws, aborting the request), and drop empty
segments. -/
def wsPartsOf (pathname : String) : Option (List String) :=
  let np := mapSlashStr pathname
  ((splitOnChar '/' np.data).drop 3).mapM percentDecodeL |>.map
    (fun ds => (ds.map String.mk).filter (fun s => s ≠ ""))

/-- The absolute path the workspace module resolves a request path to:
`Path.join(vscode.workspace.rootPath, parts.join('/'))`. -/
def wsFullPath (wsRoot : List String) (pathname : String) : Option (List String) :=
  (wsPartsOf pathname).map (joinPath wsRoot)

/-- The workspace module's `request` function: resolve the URL to an
absolute path, reject paths outside the workspace root with 404 *before
any filesystem access*, then check existence, `lstat`, and dispatch to
the directory or file handler; directories only answer `get` (a dotted
directory with `withDot` off is hidden as 404), files consult the
visibility capability (ignoring its value) and defer to `handleFile`,
other nodes answer 404.  The result is the final `ApiContext` state
consumed by the response pipeline, together with the trace of filesystem
calls; `.error` is a rejected promise (surfaced by the dispatcher as an
error response). -/
def workspaceRequest (wsRoot : List String) (fs : FileSystem) (withDot : Bool)
    (visible : List String → Bool) (mimeOf : String → String) (openDocOk showOk : Bool)
    (meth pathname : String) : Except String (ApiCtxState × List FsCall) :=
  match wsPartsOf pathname with
  | none => .error "URIError"
  | some parts =>
    let fullPath := joinPath wsRoot parts
    match toRelativePath wsRoot fullPath with
    | none => .ok (applySendNotFound initialApiCtx, [])
    | some _ =>
      match fsLookup fs fullPath with
      | none => .ok (applySendNotFound initialApiCtx, [.existsCall fullPath])
      | some info =>
        let tr0 := [FsCall.existsCall fullPath, FsCall.lstatCall fullPath]
        match info.kind with
        | .dirKind =>
          if meth = "get" then
            if hasLeadingDot (basenameOf fullPath) && !withDot then
              .ok (applySendNotFound initialApiCtx, tr0)
            else
              match handleDirectory fs visible withDot mimeOf wsRoot fullPath info.children
                      initialApiCtx with
              | .error e => .error e
              | .ok (st, tr) => .ok (st, tr0 ++ tr)
          else
            .ok (applySendMethodNotAllowed initialApiCtx, tr0)
        | .fileKind =>
          match handleFile fs mimeOf openDocOk showOk meth fullPath initialApiCtx with
          | .error e => .error e
          | .ok (st, tr) => .ok (st, tr0 ++ tr)
        | .specialKind =>
          .ok (applySendNotFound initialApiCtx, tr0)

/-! ## Response compression (`sendResponse`, host.ts lines 388-400) -/

/-- Result a resolved `compressForResponse` promise carries: the bytes to
send and, when compression was applied, the negotiated content-encoding
name. -/
structure CompressResult where
  dataToSend : String
  contentEncoding : Option String
  deriving DecidableEq

/-- The response as written to the socket: final headers, body, and
whether an error response was produced instead of the payload. -/
structure SentResponse where
  headers : Option (List (String × String))
  body : String
  errorSent : Bool
  deriving DecidableEq

/-- The compression dispatch of `sendResponse`: a resolved compression
adds the `Content-encoding` header exactly when a scheme name is
reported and sends the (possibly compressed) result; a rejected
compression falls back to sending the original payload with untouched
headers, and never produces an error response. -/
def sendAfterCompression (responseData : String) (hdrs : Option (List (String × String))) :
    Except String CompressResult → SentResponse
  | .ok r =>
    let hdrs2 :=
      match r.contentEncoding with
      | some enc => some (assocUpd (hdrs.getD []) "Content-encoding" enc)
      | none => hdrs
    { headers := hdrs2, body := r.dataToSend, errorSent := false }
  | .error _ => { headers := hdrs, body := responseData, errorSent := false }

/-! ## Auxiliary definitions for the statements -/

/-- Extracts the directory-listing payload from a finished workspace
request (the value the response pipeline serializes from
`response.data`). -/
def listingOf : Except String (ApiCtxState × List FsCall) → Option DirListing
  | .ok (st, _) =>
    match st.response with
    | some r =>
      match r.data with
      | some (.listing l) => some l
      | _ => none
    | none => none
  | .error _ => none

/-- Whether a name list is sorted by the case-normalized comparison the
specification describes for directory listings (`x ≤ y` being the JS
`¬(y < x)`). -/
def namesSortedByNorm : List String → Bool
  | [] => true
  | x :: rest =>
    match rest with
    | [] => true
    | y :: _ => !strLtB (normalizeString y) (normalizeString x) && namesSortedByNorm rest

/-- Example filesystem for the sorting/visibility claims: a workspace
root `/home/ws` whose `readdir` order is `b.txt`, `A` (a directory),
`a.txt`, `c.txt`. -/
def sortDemoFs : FileSystem :=
  [ (["home", "ws"],
     { kind := .dirKind, children := ["b.txt", "A", "a.txt", "c.txt"] }),
    (["home", "ws", "b.txt"], { kind := .fileKind, content := "b" }),
    (["home", "ws", "A"], { kind := .dirKind }),
    (["home", "ws", "a.txt"], { kind := .fileKind, content := "a" }),
    (["home", "ws", "c.txt"], { kind := .fileKind, content := "c" }) ]

/-- The run of the workspace handler on `sortDemoFs` listing the root,
with every file visible except `c.txt`. -/
def sortDemoRun : Except String (ApiCtxState × List FsCall) :=
  workspaceRequest ["home", "ws"] sortDemoFs true
    (fun p => p ≠ ["home", "ws", "c.txt"]) (fun _ => "text/plain") true true
    "get" "/api/workspace"

/-- Example filesystem with a single visible file `f.txt` under the
workspace root `/home/ws`. -/
def fileDemoFs : FileSystem :=
  [ (["home", "ws"], { kind := .dirKind, children := ["f.txt"] }),
    (["home", "ws", "f.txt"], { kind := .fileKind, content := "hello" }) ]

/-! ## Helper lemmas -/

theorem listStartsWith_append [DecidableEq α] (a b : List α) :
    listStartsWith a (a ++ b) = true := by
  induction a with
  | nil => rfl
  | cons x as ih => simp [listStartsWith, ih]

theorem listStartsWith_exists [DecidableEq α] {a b : List α}
    (h : listStartsWith a b = true) : ∃ c, b = a ++ c := by
  induction a generalizing b with
  | nil => exact ⟨b, rfl⟩
  | cons x as ih =>
    cases b with
    | nil => simp [listStartsWith] at h
    | cons y bs =>
      simp only [listStartsWith, Bool.and_eq_true, decide_eq_true_eq] at h
      obtain ⟨c, hc⟩ := ih h.2
      exact ⟨c, by rw [h.1, hc]; rfl⟩

theorem listStartsWith_length_le [DecidableEq α] {a b : List α}
    (h : listStartsWith a b = true) : a.length ≤ b.length := by
  obtain ⟨c, hc⟩ := listStartsWith_exists h
  simp [hc]

theorem assocLookup_assocUpd_self (l : List (String × String)) (k v : String) :
    assocLookup (assocUpd l k v) k = some v := by
  induction l with
  | nil => simp [assocUpd, assocLookup]
  | cons p rest ih =>
    by_cases hk : p.1 = k
    · simp [assocUpd, assocLookup, hk]
    · simp [assocUpd, assocLookup, hk, ih]

theorem assocLookup_assocUpd_ne (l : List (String × String)) {k k' : String}
    (v : String) (h : k ≠ k') :
    assocLookup (assocUpd l k v) k' = assocLookup l k' := by
  induction l with
  | nil => simp [assocUpd, assocLookup, h]
  | cons p rest ih =>
    by_cases hk : p.1 = k
    · simp [assocUpd, assocLookup, hk, h]
    · simp only [assocUpd, hk, if_false, assocLookup]
      by_cases hk' : p.1 = k'
      · simp [hk']
      · simp [hk', ih]

theorem dropLast_append_left (a : List α) {b : List α} (hb : b ≠ []) :
    (a ++ b).dropLast = a ++ b.dropLast := by
  induction a with
  | nil => rfl
  | cons x as ih =>
    have hne : as ++ b ≠ [] := by
      intro hE
      exact hb (List.append_eq_nil.mp hE).2
    rw [List.cons_append, List.dropLast_cons_of_ne_nil hne, ih, List.cons_append]

/-! ## Claims -/

/-- C2: when the external user collaborator resolves no user, the
listener answers exactly 401 Unauthorized and stops — `handleRequest`
(and hence `handleApi`) is never invoked and no module load is attempted
for that request. -/
theorem unauthenticatedRequestStops (loadMod : String → Option JsModule)
    (rawMethod pathname remoteAddr timeStr : String) :
    requestListenerModel none loadMod rawMethod pathname remoteAddr timeStr
      = { outcome := .unauthorized, modulesLoaded := [], handleRequestInvoked := false }
    ∧ statusOfOutcome .unauthorized = some 401 :=
  ⟨rfl, rfl⟩

/-- C7 counterexample: requesting the root resource `/api` as the
non-guest account named `"Alice"` yields `me.name = "alice"`, not the
account's display name `"Alice"` — the handler passes the name through
`normalizeString`, which lower-cases it. -/
theorem rootMeNameNotDisplayName :
    (requestListenerModel (some { isGuest := false, accountName := "Alice" })
        (fun _ => none) "GET" "/api" "1.2.3.4" "2026-01-01 00:00:00").outcome
      = .rootHandled (.rootInfo "1.2.3.4" "2026-01-01 00:00:00" (some "alice"))
    ∧ ("alice" : String) ≠ "Alice" :=
  ⟨rfl, by decide⟩

/-- C7 (amended): an authenticated request for `/api` is answered with
the remote address and the formatted request time; `me` is present
exactly for non-guest users, and its `name` is the account's display
name passed through `normalizeString` (lower-cased and trimmed). -/
theorem rootResourceResponse (u : User) (loadMod : String → Option JsModule)
    (rawMethod remoteAddr timeStr : String) :
    (requestListenerModel (some u) loadMod rawMethod "/api" remoteAddr timeStr).outcome
      = .rootHandled (rootResponseData remoteAddr timeStr u.accountName u.isGuest)
    ∧ (u.isGuest = true →
        rootResponseData remoteAddr timeStr u.accountName u.isGuest
          = .rootInfo remoteAddr timeStr none)
    ∧ (u.isGuest = false →
        rootResponseData remoteAddr timeStr u.accountName u.isGuest
          = .rootInfo remoteAddr timeStr (some (normalizeString u.accountName))) := by
  refine ⟨rfl, fun hg => ?_, fun hg => ?_⟩
  · simp [rootResponseData, hg]
  · simp [rootResponseData, hg]

/-- C7 witness: the root response for the non-guest `"Bob"` and for a
guest, at concrete inputs. -/
theorem rootResourceResponse_witness :
    (requestListenerModel (some { isGuest := false, accountName := "Bob" })
        (fun _ => none) "GET" "/api" "addr" "t").outcome
      = .rootHandled (rootResponseData "addr" "t" "Bob" false)
    ∧ rootResponseData "addr" "t" "Bob" false = .rootInfo "addr" "t" (some "bob")
    ∧ rootResponseData "addr" "t" "G" true = .rootInfo "addr" "t" none := by
  refine ⟨(rootResourceResponse ⟨false, "Bob"⟩ (fun _ => none) "GET" "addr" "t").1, ?_, ?_⟩
  · exact ((rootResourceResponse ⟨false, "Bob"⟩ (fun _ => none) "GET" "addr" "t").2.2 rfl).trans
      (by decide)
  · exact (rootResourceResponse ⟨true, "G"⟩ (fun _ => none) "GET" "addr" "t").2.1 rfl

/-- C10: any request path whose normalized (lower-cased) form merely
starts with the characters `/api` — even with no `/` after them — passes
the `REGEX_API` test and is routed as an API request; `handleApi` then
strips the first four characters, so `/apifoo` is handled with module
name `foo` (the load of module `foo` is attempted and, failing, yields
the API 404). -/
theorem apiPrefixLooseMatch :
    (∀ p : String,
        listStartsWith "/api".data (normalizeString p).data = true → isApiRequest p = true)
    ∧ apiPartsOf "/apifoo" = ["foo"]
    ∧ (requestListenerModel (some { isGuest := true, accountName := "" }) (fun _ => none)
        "GET" "/apifoo" "" "").modulesLoaded = ["foo"]
    ∧ (requestListenerModel (some { isGuest := true, accountName := "" }) (fun _ => none)
        "GET" "/apifoo" "" "").outcome = .apiNotFound := by
  refine ⟨fun p h => ?_, rfl, rfl, rfl⟩
  obtain ⟨t, ht⟩ := listStartsWith_exists h
  unfold isApiRequest regexApiTest
  rw [ht, List.map_append]
  have h4 : "/api".data.map lowerChar = "/api".data := by decide
  rw [h4]
  exact listStartsWith_append _ _

/-- C10 witness: `/apifoo` itself satisfies the prefix hypothesis and is
routed as an API request. -/
theorem apiPrefixLooseMatch_witness : isApiRequest "/apifoo" = true :=
  apiPrefixLooseMatch.1 "/apifoo" (by decide)

/-- C3: for an API request whose first path segment names a module, a
failed module load is answered 404 Not Found, and a module that loads
without exporting a function named like the lower-cased HTTP method is
answered exactly 405 Method Not Allowed (via the fixed
`sendMethodNotAllowed` responder). -/
theorem moduleRouting404And405 (u : User) (loadMod : String → Option JsModule)
    (rawMethod pathname remoteAddr timeStr m0 : String) (rest : List String)
    (hapi : isApiRequest pathname = true)
    (hparts : apiPartsOf pathname = m0 :: rest)
    (hmod : jsIsEmptyString (cleanupString m0) = false) :
    (loadMod (cleanupString m0) = none →
      (requestListenerModel (some u) loadMod rawMethod pathname remoteAddr timeStr).outcome
        = .apiNotFound
      ∧ statusOfOutcome RunOutcome.apiNotFound = some 404)
    ∧ (∀ m : JsModule, loadMod (cleanupString m0) = some m →
        exportLookup m.exports (effectiveMethod rawMethod) ≠ some true →
        (requestListenerModel (some u) loadMod rawMethod pathname remoteAddr timeStr).outcome
          = .apiMethodNotAllowed
        ∧ statusOfOutcome RunOutcome.apiMethodNotAllowed = some 405) := by
  constructor
  · intro hload
    refine ⟨?_, rfl⟩
    simp [requestListenerModel, hapi, hparts, hmod, hload]
  · intro m hload hexp
    refine ⟨?_, rfl⟩
    simp only [requestListenerModel, hapi, if_true, hparts, hmod, Bool.false_eq_true,
      if_false, hload]

/-- C3 witness: at `/api/foo`, a failing loader gives the 404 outcome,
and a loader exposing only a `post` function gives the 405 outcome for a
GET request. -/
theorem moduleRouting404And405_witness :
    (requestListenerModel (some { isGuest := true, accountName := "" }) (fun _ => none)
        "GET" "/api/foo" "" "").outcome = .apiNotFound
    ∧ statusOfOutcome RunOutcome.apiNotFound = some 404
    ∧ (requestListenerModel (some { isGuest := true, accountName := "" })
        (fun n => if n = "foo" then some { exports := [("post", true)] } else none)
        "GET" "/api/foo" "" "").outcome = .apiMethodNotAllowed
    ∧ statusOfOutcome RunOutcome.apiMethodNotAllowed = some 405 := by
  refine ⟨?_, rfl, ?_, rfl⟩
  · exact ((moduleRouting404And405 ⟨true, ""⟩ (fun _ => none) "GET" "/api/foo" "" "" "foo" []
      (by decide) (by decide) (by decide)).1 rfl).1
  · exact ((moduleRouting404And405 ⟨true, ""⟩
      (fun n => if n = "foo" then some { exports := [("post", true)] } else none)
      "GET" "/api/foo" "" "" "foo" [] (by decide) (by decide) (by decide)).2
      { exports := [("post", true)] } (by decide) (by decide)).1

/-- C8: the compression step of `sendResponse` is best-effort — a
resolved compression reporting a scheme adds the `Content-encoding`
header and sends the compressed bytes; a rejected compression sends the
original uncompressed payload with untouched headers and never surfaces
to the client as an error. -/
theorem compressionBestEffort (responseData : String)
    (hdrs : Option (List (String × String))) (r : CompressResult) (enc e : String) :
    (r.contentEncoding = some enc →
      sendAfterCompression responseData hdrs (.ok r)
        = { headers := some (assocUpd (hdrs.getD []) "Content-encoding" enc),
            body := r.dataToSend, errorSent := false }
      ∧ assocLookup (assocUpd (hdrs.getD []) "Content-encoding" enc) "Content-encoding"
          = some enc)
    ∧ sendAfterCompression responseData hdrs (.error e)
        = { headers := hdrs, body := responseData, errorSent := false } := by
  constructor
  · intro h
    exact ⟨by simp [sendAfterCompression, h], assocLookup_assocUpd_self _ _ _⟩
  · rfl

/-- C8 witness: a concrete compression success adds the gzip header and
sends the compressed bytes; a concrete failure falls back to the
original payload. -/
theorem compressionBestEffort_witness :
    sendAfterCompression "payload" (some [("Content-type", "text/plain")])
        (.ok { dataToSend := "zipped", contentEncoding := some "gzip" })
      = { headers := some [("Content-type", "text/plain"), ("Content-encoding", "gzip")],
          body := "zipped", errorSent := false }
    ∧ sendAfterCompression "payload" (some [("Content-type", "text/plain")]) (.error "boom")
      = { headers := some [("Content-type", "text/plain")], body := "payload",
          errorSent := false } := by
  refine ⟨?_, (compressionBestEffort "payload" (some [("Content-type", "text/plain")])
    { dataToSend := "zipped", contentEncoding := some "gzip" } "gzip" "boom").2⟩
  exact ((compressionBestEffort "payload" (some [("Content-type", "text/plain")])
    { dataToSend := "zipped", contentEncoding := some "gzip" } "gzip" "boom").1 rfl).1.trans
    (by decide)

/-- C1: a request path whose decoded segments resolve outside the
workspace root is answered 404 by the relative-path check before any
filesystem access — the workspace handler returns the not-found context
with an empty filesystem-call trace (no exists/lstat/read ever
happens). -/
theorem pathEscapeRejectedBeforeIo (wsRoot : List String) (fs : FileSystem)
    (withDot : Bool) (visible : List String → Bool) (mimeOf : String → String)
    (openDocOk showOk : Bool) (meth pathname : String) (parts : List String)
    (hparts : wsPartsOf pathname = some parts)
    (hout : toRelativePath wsRoot (joinPath wsRoot parts) = none) :
    workspaceRequest wsRoot fs withDot visible mimeOf openDocOk showOk meth pathname
      = .ok (applySendNotFound initialApiCtx, [])
    ∧ (applySendNotFound initialApiCtx).statusCode = 404 := by
  refine ⟨?_, rfl⟩
  simp only [workspaceRequest, hparts, hout]

/-- C1 witness: `/api/workspace/../../etc/passwd` decodes to segments
that resolve to `/etc/passwd`, outside the root `/home/ws`; the request
is answered 404 with no filesystem call. -/
theorem pathEscapeRejectedBeforeIo_witness :
    wsPartsOf "/api/workspace/../../etc/passwd" = some ["..", "..", "etc", "passwd"]
    ∧ toRelativePath ["home", "ws"]
        (joinPath ["home", "ws"] ["..", "..", "etc", "passwd"]) = none
    ∧ workspaceRequest ["home", "ws"] sortDemoFs true (fun _ => true) (fun _ => "")
        true true "get" "/api/workspace/../../etc/passwd"
      = .ok (applySendNotFound initialApiCtx, []) := by
  refine ⟨by decide, by decide, ?_⟩
  exact (pathEscapeRejectedBeforeIo ["home", "ws"] sortDemoFs true (fun _ => true)
    (fun _ => "") true true "get" "/api/workspace/../../etc/passwd"
    ["..", "..", "etc", "passwd"] (by decide) (by decide)).1

/-- C4 evaluation at the failing input: for `readdir` order
`[b.txt, A, a.txt, c.txt]` (A a directory, `c.txt` invisible), the
completed listing keeps `files` in `readdir` order `[b.txt, a.txt]` —
not sorted by normalized name — because the `completed` comparator
passes the item objects themselves to `normalizeString`, giving every
item the constant key `"[object object]"`.  The visibility filtering
half of the claim does hold: the invisible `c.txt` is absent. -/
theorem listingUnsortedDespiteSpec :
    (listingOf sortDemoRun).map (fun l => l.files.map RespEntry.name)
      = some ["b.txt", "a.txt"]
    ∧ (listingOf sortDemoRun).map (fun l => namesSortedByNorm (l.files.map RespEntry.name))
      = some false
    ∧ (listingOf sortDemoRun).map (fun l => l.dirs.map RespEntry.name) = some ["A"]
    ∧ namesSortedByNorm ["a.txt", "b.txt"] = true := by
  refine ⟨by decide, by decide, by decide, by decide⟩

theorem toRelativePath_append (a b : List String) :
    toRelativePath a (a ++ b) = some b := by
  simp [toRelativePath, listStartsWith_append, List.drop_left]

theorem toRelativePath_dropLast_none {w : List String} (hw : w ≠ []) :
    toRelativePath w w.dropLast = none := by
  have hn : ¬ (listStartsWith w w.dropLast = true) := by
    intro hsw
    have hle := listStartsWith_length_le hsw
    rw [List.length_dropLast] at hle
    have hpos : 0 < w.length := List.length_pos.mpr hw
    omega
  simp [toRelativePath, hn]

theorem parentLink_self (wsRoot : List String) :
    parentLink wsRoot wsRoot = none := by
  by_cases h0 : wsRoot = []
  · subst h0; rfl
  · simp [parentLink, toRelativePath_dropLast_none h0]

theorem parentLink_proper (wsRoot : List String) {rel : List String} (hrel : rel ≠ []) :
    parentLink wsRoot (wsRoot ++ rel)
      = some ("/api/workspace" ++
          String.intercalate "/" (("" :: rel.dropLast).map encodeURIComponentStr)) := by
  have hdl : (wsRoot ++ rel).dropLast = wsRoot ++ rel.dropLast :=
    dropLast_append_left _ hrel
  simp [parentLink, hdl, toRelativePath_append]
  intro hEq
  have hlen := congrArg List.length hEq
  rw [List.length_dropLast] at hlen
  have hpos : 0 < rel.length := List.length_pos.mpr hrel
  omega

/-- C9: in a completed directory listing of a directory inside the
workspace root, the `parent` link is present exactly when the listed
directory is not the workspace root itself, and when present it is the
fixed `/api/workspace` mount point followed by the URL-segment-encoded
workspace-relative path of the parent directory. -/
theorem parentPresentIffNotRoot (wsRoot dir : List String) (ds : List DirectoryItem)
    (fls : List FileItem) (h : listStartsWith wsRoot dir = true) :
    ((buildListing wsRoot dir ds fls).parent.isSome = true ↔ dir ≠ wsRoot)
    ∧ (∀ rel : List String, dir = wsRoot ++ rel → rel ≠ [] →
        (buildListing wsRoot dir ds fls).parent
          = some ("/api/workspace" ++
              String.intercalate "/" (("" :: rel.dropLast).map encodeURIComponentStr))) := by
  have hparent : (buildListing wsRoot dir ds fls).parent = parentLink wsRoot dir := rfl
  constructor
  · rw [hparent]
    constructor
    · intro hsome hdir
      rw [hdir, parentLink_self] at hsome
      simp at hsome
    · intro hdir
      obtain ⟨rel, hrel⟩ := listStartsWith_exists h
      have hrelne : rel ≠ [] := by
        intro h0
        exact hdir (by rw [hrel, h0, List.append_nil])
      rw [hrel, parentLink_proper wsRoot hrelne]
      rfl
  · intro rel hdir hrel
    rw [hparent, hdir, parentLink_proper wsRoot hrel]

/-- C9 witness: for the root `/home/ws` and the directory `/home/ws/sub`
the parent link is present and equals `/api/workspace`; for the root
itself it is absent. -/
theorem parentPresentIffNotRoot_witness :
    (buildListing ["home", "ws"] ["home", "ws", "sub"] [] []).parent = some "/api/workspace"
    ∧ (buildListing ["home", "ws"] ["home", "ws"] [] []).parent.isSome = false := by
  constructor
  · exact ((parentPresentIffNotRoot ["home", "ws"] ["home", "ws", "sub"] [] []
      (by decide)).2 ["sub"] rfl (by decide)).trans (by decide)
  · have hiff := (parentPresentIffNotRoot ["home", "ws"] ["home", "ws"] [] []
      (by decide)).1
    by_cases hs : (buildListing ["home", "ws"] ["home", "ws"] [] []).parent.isSome = true
    · exact absurd rfl (hiff.mp hs)
    · simpa using hs

theorem handleDirectory_ok_form (fs : FileSystem) (visible : List String → Bool)
    (withDot : Bool) (mimeOf : String → String) (wsRoot dir : List String)
    (children : List String) (ctx st : ApiCtxState) (tr : List FsCall)
    (h : handleDirectory fs visible withDot mimeOf wsRoot dir children ctx = .ok (st, tr)) :
    ∃ l, st = setResponseData (setHeader ctx HEADER_FILE_TYPE "directory")
        (RespData.listing l) := by
  rcases hc : collectItems fs visible withDot mimeOf dir children with e | ⟨ds, fls, tr2⟩
  · simp only [handleDirectory, hc] at h
    exact Except.noConfusion h
  · simp only [handleDirectory, hc, Except.ok.injEq, Prod.mk.injEq] at h
    exact ⟨_, h.1.symm⟩

theorem handleFile_ok_form (fs : FileSystem) (mimeOf : String → String)
    (openDocOk showOk : Bool) (meth : String) (file : List String)
    (ctx st : ApiCtxState) (tr : List FsCall)
    (h : handleFile fs mimeOf openDocOk showOk meth file ctx = .ok (st, tr)) :
    (∃ c m, st = applySetContent (setHeader ctx HEADER_FILE_TYPE "file") c m)
    ∨ st = setHeader ctx HEADER_FILE_TYPE "file"
    ∨ st = setResponseCode (setHeader ctx HEADER_FILE_TYPE "file") 1
    ∨ st = applySendMethodNotAllowed (setHeader ctx HEADER_FILE_TYPE "file") := by
  by_cases hg : meth = "get"
  · rcases hfs : fsLookup fs file with _ | info
    · simp only [handleFile, hg, eq_self_iff_true, if_true, hfs] at h
      exact Except.noConfusion h
    · simp only [handleFile, hg, eq_self_iff_true, if_true, hfs,
        Except.ok.injEq, Prod.mk.injEq] at h
      exact Or.inl ⟨_, _, h.1.symm⟩
  · by_cases hp : meth = "post"
    · have hpg : ¬ ("post" : String) = "get" := by decide
      by_cases ho : openDocOk = true
      · by_cases hs : showOk = true
        · simp only [handleFile, hg, hp, hpg, ho, hs, eq_self_iff_true, if_true, if_false,
            Except.ok.injEq, Prod.mk.injEq] at h
          exact Or.inr (Or.inl h.1.symm)
        · simp only [handleFile, hg, hp, hpg, ho, hs, eq_self_iff_true, if_true, if_false,
            Bool.false_eq_true, Except.ok.injEq, Prod.mk.injEq] at h
          exact Or.inr (Or.inr (Or.inl h.1.symm))
      · simp only [handleFile, hg, hp, hpg, ho, eq_self_iff_true, if_true, if_false,
          Bool.false_eq_true] at h
        exact Except.noConfusion h
    · simp only [handleFile, hg, hp, if_false,
        Except.ok.injEq, Prod.mk.injEq] at h
      exact Or.inr (Or.inr (Or.inr h.1.symm))

theorem workspaceRequest_ok_forms (wsRoot : List String) (fs : FileSystem) (withDot : Bool)
    (visible : List String → Bool) (mimeOf : String → String) (openDocOk showOk : Bool)
    (meth pathname : String) (st : ApiCtxState) (tr : List FsCall)
    (h : workspaceRequest wsRoot fs withDot visible mimeOf openDocOk showOk meth pathname
      = .ok (st, tr)) :
    st = applySendNotFound initialApiCtx
    ∨ st = applySendMethodNotAllowed initialApiCtx
    ∨ (∃ l, st = setResponseData (setHeader initialApiCtx HEADER_FILE_TYPE "directory")
          (RespData.listing l))
    ∨ (∃ c m, st = applySetContent (setHeader initialApiCtx HEADER_FILE_TYPE "file") c m)
    ∨ st = setHeader initialApiCtx HEADER_FILE_TYPE "file"
    ∨ st = setResponseCode (setHeader initialApiCtx HEADER_FILE_TYPE "file") 1
    ∨ st = applySendMethodNotAllowed (setHeader initialApiCtx HEADER_FILE_TYPE "file") := by
  rcases hwp : wsPartsOf pathname with _ | parts
  · simp only [workspaceRequest, hwp] at h
    exact Except.noConfusion h
  · simp only [workspaceRequest, hwp] at h
    rcases hrel : toRelativePath wsRoot (joinPath wsRoot parts) with _ | rel
    · simp only [hrel, Except.ok.injEq, Prod.mk.injEq] at h
      exact Or.inl h.1.symm
    · simp only [hrel] at h
      rcases hfs : fsLookup fs (joinPath wsRoot parts) with _ | info
      · simp only [hfs, Except.ok.injEq, Prod.mk.injEq] at h
        exact Or.inl h.1.symm
      · simp only [hfs] at h
        rcases hk : info.kind with _ | _ | _
        · -- directory node
          by_cases hm : meth = "get"
          · by_cases hdot : (hasLeadingDot (basenameOf (joinPath wsRoot parts)) && !withDot)
                = true
            · simp only [hk, hm, hdot, eq_self_iff_true, if_true,
                Except.ok.injEq, Prod.mk.injEq] at h
              exact Or.inl h.1.symm
            · rcases hhd : handleDirectory fs visible withDot mimeOf wsRoot
                  (joinPath wsRoot parts) info.children initialApiCtx with e | ⟨st2, tr2⟩
              · simp only [hk, hm, hdot, eq_self_iff_true, if_true, if_false,
                  Bool.false_eq_true, hhd] at h
                exact Except.noConfusion h
              · simp only [hk, hm, hdot, eq_self_iff_true, if_true, if_false,
                  Bool.false_eq_true, hhd, Except.ok.injEq, Prod.mk.injEq] at h
                obtain ⟨l, hl⟩ := handleDirectory_ok_form _ _ _ _ _ _ _ _ _ _ hhd
                exact Or.inr (Or.inr (Or.inl ⟨l, by rw [← h.1]; exact hl⟩))
          · simp only [hk, hm, if_false, Except.ok.injEq, Prod.mk.injEq] at h
            exact Or.inr (Or.inl h.1.symm)
        · -- file node
          rcases hhf : handleFile fs mimeOf openDocOk showOk meth
              (joinPath wsRoot parts) initialApiCtx with e | ⟨st2, tr2⟩
          · simp only [hk, hhf] at h
            exact Except.noConfusion h
          · simp only [hk, hhf, Except.ok.injEq, Prod.mk.injEq] at h
            rcases handleFile_ok_form _ _ _ _ _ _ _ _ _ hhf with hf | hf | hf | hf
            · obtain ⟨c, m, hcm⟩ := hf
              exact Or.inr (Or.inr (Or.inr (Or.inl ⟨c, m, by rw [← h.1]; exact hcm⟩)))
            · exact Or.inr (Or.inr (Or.inr (Or.inr (Or.inl (by rw [← h.1]; exact hf)))))
            · exact Or.inr (Or.inr (Or.inr (Or.inr (Or.inr
                (Or.inl (by rw [← h.1]; exact hf))))))
            · exact Or.inr (Or.inr (Or.inr (Or.inr (Or.inr
                (Or.inr (by rw [← h.1]; exact hf))))))
        · -- special node
          simp only [hk, Except.ok.injEq, Prod.mk.injEq] at h
          exact Or.inl h.1.symm

/-- C5 counterexample: a reachable send-time context in which *neither*
`content` nor `response` is populated — a `PUT` on an existing file runs
`sendMethodNotAllowed`, which deletes `response` while `content` was
never set, so the pipeline consumes a context with zero of the two
fields populated, refuting "exactly one". -/
theorem contentResponseBothAbsent :
    workspaceRequest ["home", "ws"] fileDemoFs true (fun _ => true) (fun _ => "text/plain")
        true true "put" "/api/workspace/f.txt"
      = .ok (applySendMethodNotAllowed (setHeader initialApiCtx HEADER_FILE_TYPE "file"),
             [.existsCall ["home", "ws", "f.txt"], .lstatCall ["home", "ws", "f.txt"]])
    ∧ (applySendMethodNotAllowed (setHeader initialApiCtx HEADER_FILE_TYPE "file")).response
        = none
    ∧ (applySendMethodNotAllowed (setHeader initialApiCtx HEADER_FILE_TYPE "file")).content
        = none :=
  ⟨rfl, rfl, rfl⟩

/-- C5 (amended): at send time *at most* one of `content` and `response`
is populated — every context the workspace handler hands to the response
pipeline has at most one of the two set, and `setContent` (the one
operation that sets one of the two fields) clears `response` while
setting `content`; the terminal 404/405 transitions clear `response`
without populating `content`, so both may be absent. -/
theorem contentResponseMutex (wsRoot : List String) (fs : FileSystem) (withDot : Bool)
    (visible : List String → Bool) (mimeOf : String → String) (openDocOk showOk : Bool)
    (meth pathname : String) (st st2 : ApiCtxState) (tr : List FsCall) (c m : String)
    (h : workspaceRequest wsRoot fs withDot visible mimeOf openDocOk showOk meth pathname
      = .ok (st, tr)) :
    ¬(st.response.isSome = true ∧ st.content.isSome = true)
    ∧ (applySetContent st2 c m).response = none
    ∧ (applySetContent st2 c m).content = some c := by
  refine ⟨?_, rfl, rfl⟩
  rcases workspaceRequest_ok_forms wsRoot fs withDot visible mimeOf openDocOk showOk
      meth pathname st tr h with h1 | h1 | ⟨l, h1⟩ | ⟨c', m', h1⟩ | h1 | h1 | h1 <;>
    subst h1 <;>
    simp [applySendNotFound, applySendMethodNotAllowed, applySetContent,
      setResponseData, setResponseCode, setHeader, initialApiCtx]

/-- C5 witness: the mutual-exclusion statement instantiated at a
concrete 404 run and a concrete `setContent` call. -/
theorem contentResponseMutex_witness :
    ¬((applySendNotFound initialApiCtx).response.isSome = true
        ∧ (applySendNotFound initialApiCtx).content.isSome = true)
    ∧ (applySetContent initialApiCtx "data" "text/plain").response = none
    ∧ (applySetContent initialApiCtx "data" "text/plain").content = some "data" :=
  contentResponseMutex ["home", "ws"] fileDemoFs true (fun _ => true) (fun _ => "")
    true true "get" "/api/workspace/nope" (applySendNotFound initialApiCtx) initialApiCtx
    [.existsCall ["home", "ws", "nope"]] "data" "text/plain" rfl

/-- C6 counterexample: a 404 produced by the workspace handler (the
addressed path does not exist) carries no headers at all — in
particular not the type-discriminator header — because `sendNotFound`
deletes the whole headers object. -/
theorem typeHeaderMissingOn404 :
    workspaceRequest ["home", "ws"] sortDemoFs true (fun _ => true) (fun _ => "") true true
        "get" "/api/workspace/missing"
      = .ok (applySendNotFound initialApiCtx, [.existsCall ["home", "ws", "missing"]])
    ∧ (applySendNotFound initialApiCtx).statusCode = 404
    ∧ (applySendNotFound initialApiCtx).headers = none
    ∧ headerLookup (applySendNotFound initialApiCtx) HEADER_FILE_TYPE = none :=
  ⟨rfl, rfl, rfl, rfl⟩

/-- C6 (amended): the workspace handler's type-discriminator header is
present — with value `directory` or `file` — exactly on its 200
responses; its 404/405 outcomes delete the headers object entirely, so
those responses carry no discriminator (and no other header). -/
theorem typeHeaderExactlyOn200 (wsRoot : List String) (fs : FileSystem) (withDot : Bool)
    (visible : List String → Bool) (mimeOf : String → String) (openDocOk showOk : Bool)
    (meth pathname : String) (st : ApiCtxState) (tr : List FsCall)
    (h : workspaceRequest wsRoot fs withDot visible mimeOf openDocOk showOk meth pathname
      = .ok (st, tr)) :
    (st.statusCode = 200 →
      headerLookup st HEADER_FILE_TYPE = some "directory"
      ∨ headerLookup st HEADER_FILE_TYPE = some "file")
    ∧ (st.statusCode ≠ 200 → st.headers = none) := by
  rcases workspaceRequest_ok_forms wsRoot fs withDot visible mimeOf openDocOk showOk
      meth pathname st tr h with h1 | h1 | ⟨l, h1⟩ | ⟨c, m, h1⟩ | h1 | h1 | h1 <;> subst h1
  · exact ⟨fun h200 => absurd h200 (by decide), fun _ => rfl⟩
  · exact ⟨fun h200 => absurd h200 (by decide), fun _ => rfl⟩
  · exact ⟨fun _ => Or.inl rfl, fun hne => absurd rfl hne⟩
  · refine ⟨fun _ => Or.inr ?_, fun hne => absurd rfl hne⟩
    by_cases hm0 : normalizeString m = ""
    · simp only [headerLookup, applySetContent, hm0, if_true, eq_self_iff_true]
      decide
    · simp only [headerLookup, applySetContent, hm0, if_false]
      rw [show (setHeader initialApiCtx HEADER_FILE_TYPE "file").headers.getD []
            = [("Content-type", "application/json; charset=utf-8"),
               (HEADER_FILE_TYPE, "file")] from rfl]
      rw [assocLookup_assocUpd_ne _ _ (by decide)]
      decide
  · exact ⟨fun _ => Or.inr rfl, fun hne => absurd rfl hne⟩
  · exact ⟨fun _ => Or.inr rfl, fun hne => absurd rfl hne⟩
  · exact ⟨fun h200 => absurd h200 (by decide), fun _ => rfl⟩

/-- C6 witness: the amended statement at a concrete successful
directory listing, whose 200 response carries the discriminator with
value `directory`. -/
theorem typeHeaderExactlyOn200_witness :
    headerLookup (setResponseData (setHeader initialApiCtx HEADER_FILE_TYPE "directory")
        (RespData.listing (buildListing ["home", "ws"] ["home", "ws"] [] [])))
        HEADER_FILE_TYPE = some "directory"
    ∨ headerLookup (setResponseData (setHeader initialApiCtx HEADER_FILE_TYPE "directory")
        (RespData.listing (buildListing ["home", "ws"] ["home", "ws"] [] [])))
        HEADER_FILE_TYPE = some "file" :=
  (typeHeaderExactlyOn200 ["home", "ws"] [(["home", "ws"], { kind := .dirKind })] true
    (fun _ => true) (fun _ => "") true true "get" "/api/workspace"
    (setResponseData (setHeader initialApiCtx HEADER_FILE_TYPE "directory")
      (RespData.listing (buildListing ["home", "ws"] ["home", "ws"] [] [])))
    [.existsCall ["home", "ws"], .lstatCall ["home", "ws"], .readdirCall ["home", "ws"]]
    rfl).1 rfl
